import Mathlib

/-!
Shallow embedding of `Codes/utils.py` from the `ano_pred_cvpr2018` repository
(data loading and image-quality metric utilities for a video frame-prediction
pipeline), together with theorems settling the specification claims.

Conventions of the embedding:
* an in-memory image of height `h`, width `w` and `ch` channels with float
  pixel values is a function `Fin h → Fin w → Fin ch → ℚ` (exact rationals
  stand in for the float values of the data-loading code, which uses only
  exact arithmetic `v / 127.5 - 1.0` on 8-bit inputs); the TensorFlow metric
  functions are embedded separately over `ℝ`;
* external I/O (`cv2.imread` + `cv2.resize`, `glob.glob`) is abstracted as
  oracle arguments: a decoded-and-resized 8-bit image for `np_load_frame`,
  and a function `fs : String → List String` giving `glob.glob`'s result for
  each pattern;
* Python exceptions are `Except` values, and `list` indexing follows Python
  semantics including negative indices;
* `np.random.RandomState.randint(low, high)` draws uniformly from the
  integers in `[low, high)`; it is embedded by its probability mass function.
-/

/-- An in-memory float image: height `h`, width `w`, `ch` channels. -/
def Img (h w ch : ℕ) : Type := Fin h → Fin w → Fin ch → ℚ

/-- Python exceptions raised by the embedded code paths. -/
inductive PyErr where
  /-- `IndexError`: list index out of range. -/
  | indexError : PyErr
  /-- `ValueError`: e.g. `np.concatenate` needs at least one array. -/
  | valueError : PyErr
  /-- `KeyError`: missing dictionary key. -/
  | keyError : PyErr
  /-- `AssertionError`: a failed `assert` statement. -/
  | assertionError : PyErr
deriving DecidableEq, Repr

/-- Python list indexing `l[i]`: indices in `[0, len)` read from the front,
indices in `[-len, 0)` read from the end (`l[i] = l[len + i]`), anything else
raises `IndexError`. -/
def pyGet {α : Type} (l : List α) (i : ℤ) : Except PyErr α :=
  if h : 0 ≤ i ∧ i < (l.length : ℤ) then
    .ok (l.get ⟨i.toNat, by omega⟩)
  else if h2 : -(l.length : ℤ) ≤ i ∧ i < 0 then
    .ok (l.get ⟨((l.length : ℤ) + i).toNat, by omega⟩)
  else
    .error .indexError

/-- Python `range(s, e)` over integers: `[s, s+1, ..., e-1]`, empty when `e ≤ s`. -/
def pyRange (s e : ℤ) : List ℤ :=
  (List.range (e - s).toNat).map (fun k : ℕ => s + (k : ℤ))

/-- `np.concatenate(l, axis=2)` for a list of `h × w × 3` images: stacks the
images along the channel axis.  Defined by recursion on the list; the channel
count of the result is `3 * l.length`. -/
def concatCh {h w : ℕ} : (l : List (Img h w 3)) → Fin h → Fin w → Fin (3 * l.length) → ℚ
  | [], _, _, q => (Fin.cast (by simp) q).elim0
  | a :: t, i, j, q =>
      if hq : (q : ℕ) < 3 then a i j ⟨q, hq⟩
      else concatCh t i j ⟨(q : ℕ) - 3, by have := q.isLt; simp only [List.length_cons] at this; omega⟩

/-- The result type of `np.concatenate` on images: a channel count together
with the stacked tensor. -/
def Clip (h w : ℕ) : Type := (n : ℕ) × (Fin h → Fin w → Fin (3 * n) → ℚ)

/-- `np.concatenate(batch, axis=2)` as the fallible NumPy call: raises
`ValueError` on an empty list, otherwise returns the stacked tensor. -/
def np_concatenate_ch {h w : ℕ} (l : List (Img h w 3)) : Except PyErr (Clip h w) :=
  match l with
  | [] => .error .valueError
  | a :: t => .ok ⟨(a :: t).length, concatCh (a :: t)⟩

/-- `np_load_frame` (utils.py lines 12–17), given the decoded-and-resized
8-bit image (`cv2.imread` followed by `cv2.resize` to
`(resize_width, resize_height)` yields an `h × w × 3` array of integers in
`[0, 255]`): converts to float and maps each pixel `v` to `v / 127.5 - 1.0`. -/
def np_load_frame {h w : ℕ} (image_resized : Fin h → Fin w → Fin 3 → ℕ) : Img h w 3 :=
  fun i j c => ((image_resized i j c : ℚ) / 127.5) - 1.0

/-- The per-video record stored in `DataLoader.videos`
(`{'path': …, 'frame': …, 'length': …}`). -/
structure VideoInfo where
  path : String
  frame : List String
  length : ℕ
deriving DecidableEq, Repr

/-- The `DataLoader` state: the dataset directory and the ordered dictionary
of per-video records (an association list, insertion-ordered like a Python
dict). The resize dimensions appear as type parameters of the image oracles
at the call sites. -/
structure DataLoader where
  dir : String
  videos : List (String × VideoInfo)
deriving DecidableEq, Repr

/-- `video.split('/')[-1]`. -/
def lastComponent (s : String) : String := (s.splitOn "/").getLastD s

/-- `DataLoader.setup` (utils.py lines 64–72): globs the video directories
under `self.dir`, and for each (in sorted order) records its path, its sorted
list of `*.jpg` frame paths, and the number of frames.  `fs` is the
`glob.glob` oracle; Python's `sorted`/`list.sort` are embedded as stable
`mergeSort` on the lexicographic string order. -/
def setup (fs : String → List String) (dir : String) : List (String × VideoInfo) :=
  ((fs (dir ++ "/*")).mergeSort).map (fun video =>
    (lastComponent video,
     { path := video
       frame := (fs (video ++ "/*.jpg")).mergeSort
       length := ((fs (video ++ "/*.jpg")).mergeSort).length }))

/-- `DataLoader.__getitem__` (utils.py lines 60–62): asserts that the video
name is a key of `self.videos`, then returns the stored record.  Embedded in
state-passing style: the returned `DataLoader` is the state after the call. -/
def DataLoader.getitem (dl : DataLoader) (video_name : String) :
    Except PyErr VideoInfo × DataLoader :=
  match dl.videos.lookup video_name with
  | some info => (.ok info, dl)
  | none => (.error .assertionError, dl)

/-- Body of `DataLoader.get_video_clips` (utils.py lines 79–84) given the
video's loaded frames: `batch = [np_load_frame(frames[i]) for i in
range(start, end)]; return np.concatenate(batch, axis=2)`.  `frames` is the
list of already loaded images (`np_load_frame` applied to each path of the
record's `frame` list); list indexing is Python's `pyGet`. -/
def get_video_clips_body {h w : ℕ} (frames : List (Img h w 3)) (start e : ℤ) :
    Except PyErr (Clip h w) := do
  let batch ← (pyRange start e).mapM (pyGet frames)
  np_concatenate_ch batch

/-- `DataLoader.get_video_clips` (utils.py lines 74–84): looks up the video
record (`self.videos[video]`, a plain dict access raising `KeyError` when
absent — the three `assert`s are commented out), loads and concatenates the
frames at indices `range(start, end)`.  `load` is the image-loading oracle
(`np_load_frame` of a path at the loader's resize dimensions).  State-passing
style: the returned `DataLoader` is the state after the call. -/
def DataLoader.get_video_clips {h w : ℕ} (dl : DataLoader) (load : String → Img h w 3)
    (video : String) (start e : ℤ) : Except PyErr (Clip h w) × DataLoader :=
  match dl.videos.lookup video with
  | none => (.error .keyError, dl)
  | some info => (get_video_clips_body (info.frame.map load) start e, dl)

/-- One clip produced by `video_clip_generator` inside `DataLoader.__call__`
(utils.py lines 35–47), for a video whose loaded frame at index `t` is
`frame t`, a sampled start index `start`, and `clip_length = c`:
`np.concatenate([frame start, …, frame (start+c-1)], axis=2)`. -/
def video_clip {h w : ℕ} (frame : ℕ → Img h w 3) (start c : ℕ) :
    Fin h → Fin w → Fin (3 * c) → ℚ :=
  fun i j q => concatCh ((List.range' start c).map frame) i j (Fin.cast (by simp) q)

/-- Probability mass function of `np.random.RandomState.randint(low, high)`:
uniform on the integers in `[low, high)` (NumPy draws `low` inclusive, `high`
EXCLUSIVE). -/
def randint_pmf (low high k : ℤ) : ℚ :=
  if low ≤ k ∧ k < high then (1 : ℚ) / ((high - low : ℤ) : ℚ) else 0

/-- Distribution of the clip start index sampled by `video_clip_generator`
(utils.py line 41): `start = rng.randint(0, video_info['length'] - clip_length)`. -/
def clip_start_pmf (length clip_length : ℤ) (k : ℤ) : ℚ :=
  randint_pmf 0 (length - clip_length) k

/-- `DataLoader.__call__` (utils.py lines 28–58): snapshots
`list(self.videos.values())` and `clip_length = time_steps + num_pred`, and
builds the TensorFlow dataset around `video_clip_generator` (whose per-clip
output is `video_clip` and whose start distribution is `clip_start_pmf`).
State-passing style: the returned `DataLoader` is the state after the call;
the first component records what the dataset pipeline captures (the video
record snapshot, `clip_length`, and the batch size passed to `.batch`). -/
def DataLoader.call (dl : DataLoader) (batch_size time_steps num_pred : ℕ) :
    (List VideoInfo × ℕ × ℕ) × DataLoader :=
  ((dl.videos.map Prod.snd, time_steps + num_pred, batch_size), dl)

/-- Filesystem-visible actions of the checkpoint helpers. -/
inductive FsAction where
  /-- `os.makedirs(path)`. -/
  | makedirs (path : String) : FsAction
  /-- `saver.save(sess, path, global_step=step)`. -/
  | saverSave (path : String) (global_step : ℤ) : FsAction
deriving DecidableEq, Repr

/-- `save` (utils.py lines 191–197) as its trace of filesystem actions:
`checkpoint_path = os.path.join(logdir, 'model.ckpt')`; if `logdir` does not
exist, `os.makedirs(logdir)`; then `saver.save(sess, checkpoint_path,
global_step=step)`.  `logdirExists` is the oracle for `os.path.exists(logdir)`. -/
def save (logdir : String) (step : ℤ) (logdirExists : Bool) : List FsAction :=
  (if logdirExists then [] else [.makedirs logdir]) ++
    [.saverSave (logdir ++ "/" ++ "model.ckpt") step]

/-! ## TensorFlow metric functions, embedded over `ℝ` -/

/-- A 4D float tensor of shape `[batch, height, width, channels]`. -/
def Tensor4 (b h w c : ℕ) : Type := Fin b → Fin h → Fin w → Fin c → ℝ

/-- `log10` (utils.py lines 96–107): `tf.log(t) / tf.log(10)` elementwise. -/
noncomputable def log10 (t : ℝ) : ℝ := Real.log t / Real.log 10

/-- `psnr_error` (utils.py lines 110–130): rescales both inputs by
`(x + 1) / 2`, and returns the batch mean of
`10 * log10(1 / ((1 / num_pixels) * Σ square_diff))` with
`num_pixels = height * width * 3` (`shape[1] * shape[2] * shape[3]`). -/
noncomputable def psnr_error {b h w : ℕ} (gen_frames gt_frames : Tensor4 b h w 3) : ℝ :=
  let num_pixels : ℝ := ((h * w * 3 : ℕ) : ℝ)
  let gt := fun (bb : Fin b) (i : Fin h) (j : Fin w) (c : Fin 3) =>
    (gt_frames bb i j c + 1.0) / 2.0
  let gen := fun (bb : Fin b) (i : Fin h) (j : Fin w) (c : Fin 3) =>
    (gen_frames bb i j c + 1.0) / 2.0
  let square_diff := fun (bb : Fin b) (i : Fin h) (j : Fin w) (c : Fin 3) =>
    (gt bb i j c - gen bb i j c) ^ 2
  let batch_errors := fun bb : Fin b =>
    10 * log10 (1 / ((1 / num_pixels) * ∑ i, ∑ j, ∑ c, square_diff bb i j c))
  (∑ bb, batch_errors bb) / (b : ℝ)

/-- The specification's PSNR formula: rescale both tensors to `[0, 1]` via
`(x + 1) / 2`, per batch element take `10 * log10(1 / MSE)` where `MSE` is
the mean of squared per-pixel differences over the height, width and channel
axes, and average over the batch. -/
noncomputable def psnr_spec {b h w : ℕ} (gen_frames gt_frames : Tensor4 b h w 3) : ℝ :=
  let rescale := fun x : ℝ => (x + 1) / 2
  let mse := fun bb : Fin b =>
    (∑ i, ∑ j, ∑ c, (rescale (gt_frames bb i j c) - rescale (gen_frames bb i j c)) ^ 2) /
      ((h * w * 3 : ℕ) : ℝ)
  (∑ bb, 10 * log10 (1 / mse bb)) / (b : ℝ)

/-- Zero-padded tensor access: `x[bb, i, j, d]` for integer spatial indices,
`0` outside the `h × w` extent (the zero padding of `SAME` convolution). -/
def tensorGet {b h w c : ℕ} (x : Tensor4 b h w c) (bb : Fin b) (i j : ℤ) (d : Fin c) : ℝ :=
  if hi : 0 ≤ i ∧ i < (h : ℤ) then
    if hj : 0 ≤ j ∧ j < (w : ℤ) then x bb ⟨i.toNat, by omega⟩ ⟨j.toNat, by omega⟩ d
    else 0
  else 0

/-- `tf.nn.conv2d(x, f, strides=[1,1,1,1], padding='SAME')` for a filter of
shape `[fh, fw, cin, cout]`: stride-1 cross-correlation with TensorFlow's
SAME zero padding, which pads `(k - 1) / 2` cells before (top/left) and the
rest after, for filter extent `k`. -/
noncomputable def conv2d_same {b h w cin cout fh fw : ℕ}
    (x : Tensor4 b h w cin) (f : Fin fh → Fin fw → Fin cin → Fin cout → ℝ) :
    Tensor4 b h w cout :=
  fun bb i j c =>
    ∑ di : Fin fh, ∑ dj : Fin fw, ∑ d : Fin cin,
      tensorGet x bb ((i : ℤ) + (di : ℕ) - (((fh - 1) / 2 : ℕ) : ℤ))
        ((j : ℤ) + (dj : ℕ) - (((fw - 1) / 2 : ℕ) : ℤ)) d * f di dj d c

/-- `np.identity(channels)` as a filter slice (`pos` in the source; `neg` is
its negation). -/
def idMat (ch : ℕ) (d c : Fin ch) : ℝ := if d = c then 1 else 0

/-- `filter_x = tf.expand_dims(tf.stack([neg, pos]), 0)` (utils.py line 154):
shape `[1, 2, ch, ch]`, width offset 0 holds `-I`, width offset 1 holds `I`
(the `[-1, 1]` differencing filter applied per channel). -/
def filter_x (ch : ℕ) : Fin 1 → Fin 2 → Fin ch → Fin ch → ℝ :=
  fun _ dj d c => if (dj : ℕ) = 0 then -(idMat ch d c) else idMat ch d c

/-- `filter_y = tf.stack([tf.expand_dims(pos, 0), tf.expand_dims(neg, 0)])`
(utils.py line 155): shape `[2, 1, ch, ch]`, height offset 0 holds `I`,
height offset 1 holds `-I` (the `[[1], [-1]]` differencing filter applied per
channel). -/
def filter_y (ch : ℕ) : Fin 2 → Fin 1 → Fin ch → Fin ch → ℝ :=
  fun di _ d c => if (di : ℕ) = 0 then idMat ch d c else -(idMat ch d c)

/-- `sharp_diff_error` (utils.py lines 133–170): absolute `SAME` convolutions
of both inputs with `filter_x` and `filter_y`, per-input sum of the two
gradient magnitudes, absolute difference of the sums, and batch mean of
`10 * log10(1 / ((1 / num_pixels) * Σ grad_diff))` with
`num_pixels = height * width * channels`. -/
noncomputable def sharp_diff_error {b h w : ℕ} (ch : ℕ)
    (gen_frames gt_frames : Tensor4 b h w ch) : ℝ :=
  let num_pixels : ℝ := ((h * w * ch : ℕ) : ℝ)
  let gen_dx := fun (bb : Fin b) (i : Fin h) (j : Fin w) (c : Fin ch) =>
    |conv2d_same gen_frames (filter_x ch) bb i j c|
  let gen_dy := fun (bb : Fin b) (i : Fin h) (j : Fin w) (c : Fin ch) =>
    |conv2d_same gen_frames (filter_y ch) bb i j c|
  let gt_dx := fun (bb : Fin b) (i : Fin h) (j : Fin w) (c : Fin ch) =>
    |conv2d_same gt_frames (filter_x ch) bb i j c|
  let gt_dy := fun (bb : Fin b) (i : Fin h) (j : Fin w) (c : Fin ch) =>
    |conv2d_same gt_frames (filter_y ch) bb i j c|
  let gen_grad_sum := fun (bb : Fin b) (i : Fin h) (j : Fin w) (c : Fin ch) =>
    gen_dx bb i j c + gen_dy bb i j c
  let gt_grad_sum := fun (bb : Fin b) (i : Fin h) (j : Fin w) (c : Fin ch) =>
    gt_dx bb i j c + gt_dy bb i j c
  let grad_diff := fun (bb : Fin b) (i : Fin h) (j : Fin w) (c : Fin ch) =>
    |gt_grad_sum bb i j c - gen_grad_sum bb i j c|
  let batch_errors := fun bb : Fin b =>
    10 * log10 (1 / ((1 / num_pixels) * ∑ i, ∑ j, ∑ c, grad_diff bb i j c))
  (∑ bb, batch_errors bb) / (b : ℝ)

/-- Horizontal gradient magnitude described by the specification: per pixel,
the absolute difference with the right neighbour (zero beyond the edge, as
under SAME padding). -/
noncomputable def grad_x {b h w ch : ℕ} (x : Tensor4 b h w ch) : Tensor4 b h w ch :=
  fun bb i j c => |tensorGet x bb (i : ℤ) ((j : ℤ) + 1) c - x bb i j c|

/-- Vertical gradient magnitude described by the specification: per pixel,
the absolute difference with the neighbour below (zero beyond the edge, as
under SAME padding). -/
noncomputable def grad_y {b h w ch : ℕ} (x : Tensor4 b h w ch) : Tensor4 b h w ch :=
  fun bb i j c => |tensorGet x bb ((i : ℤ) + 1) (j : ℤ) c - x bb i j c|

/-- The specification's sharpness-difference formula: per-pixel horizontal
and vertical gradient magnitudes of each input, per-input sum of the two,
absolute difference of these gradient sums between ground truth and
generated, and batch mean of
`10 * log10(num_pixels / sum_of_gradient_differences)` with
`num_pixels = height * width * channels`. -/
noncomputable def sharp_diff_spec {b h w : ℕ} (ch : ℕ)
    (gen_frames gt_frames : Tensor4 b h w ch) : ℝ :=
  let num_pixels : ℝ := ((h * w * ch : ℕ) : ℝ)
  let sum_grad_diff := fun bb : Fin b =>
    ∑ i, ∑ j, ∑ c,
      |(grad_x gt_frames bb i j c + grad_y gt_frames bb i j c) -
        (grad_x gen_frames bb i j c + grad_y gen_frames bb i j c)|
  (∑ bb, 10 * log10 (num_pixels / sum_grad_diff bb)) / (b : ℝ)

/-! ## Theorems -/

/-- Helper: association-list lookup misses exactly the non-keys. -/
theorem lookup_eq_none_iff {β : Type} (l : List (String × β)) (a : String) :
    l.lookup a = none ↔ a ∉ l.map Prod.fst := by
  induction l with
  | nil => simp [List.lookup]
  | cons p t ih =>
    obtain ⟨k, v⟩ := p
    rcases eq_or_ne a k with rfl | hne
    · simp [List.lookup]
    · have hb : (a == k) = false := beq_eq_false_iff_ne.mpr hne
      simp [List.lookup, hb, ih, hne]

/-- C1 (counterexample): the start index is NOT uniform over all valid window
start positions `{0, …, L - c}`.  At frame count `L = 5` and clip length
`c = 4` (so `L > c`), the last valid start position `L - c = 1` has
probability `0` — `rng.randint(0, L - c)` excludes its upper bound, so the
window starting at `L - c` is never sampled. -/
theorem C1_last_window_never_sampled :
    (4 : ℤ) < 5 ∧ (0 : ℤ) ≤ 5 - 4 ∧ ¬ 0 < clip_start_pmf 5 4 (5 - 4) := by
  refine ⟨by norm_num, by norm_num, ?_⟩
  norm_num [clip_start_pmf, randint_pmf]

/-- C1 (amended): for every video with frame count `L` and clip length `c`
with `L > c`, the start index drawn by the clip generator is uniformly
distributed over `{0, 1, …, L - c - 1}` — each such start has probability
`1 / (L - c)`, the last fitting window start `L - c` has probability `0`, the
mass vanishes outside `{0, …, L - c - 1}`, and the masses sum to `1`. -/
theorem C1_start_uniform_excluding_last (L c : ℤ) (h : c < L) :
    (∀ k : ℤ, 0 ≤ k → k < L - c → clip_start_pmf L c k = 1 / ((L - c : ℤ) : ℚ)) ∧
    clip_start_pmf L c (L - c) = 0 ∧
    (∀ k : ℤ, k < 0 ∨ L - c ≤ k → clip_start_pmf L c k = 0) ∧
    ∑ k ∈ Finset.Icc (0 : ℤ) (L - c - 1), clip_start_pmf L c k = 1 := by
  have hmem : ∀ k : ℤ, 0 ≤ k → k < L - c →
      clip_start_pmf L c k = 1 / ((L - c : ℤ) : ℚ) := by
    intro k hk0 hk1
    unfold clip_start_pmf randint_pmf
    rw [if_pos (show (0 : ℤ) ≤ k ∧ k < L - c from ⟨hk0, hk1⟩)]
    norm_num
  refine ⟨hmem, ?_, ?_, ?_⟩
  · unfold clip_start_pmf randint_pmf
    rw [if_neg (by omega)]
  · intro k hk
    unfold clip_start_pmf randint_pmf
    rw [if_neg (by omega)]
  · have hcard : (Finset.Icc (0 : ℤ) (L - c - 1)).card = (L - c).toNat := by
      rw [Int.card_Icc]
      congr 1
      omega
    have hne : ((L - c : ℤ) : ℚ) ≠ 0 := by
      have : (0 : ℤ) < L - c := by omega
      exact_mod_cast this.ne.symm
    calc
      ∑ k ∈ Finset.Icc (0 : ℤ) (L - c - 1), clip_start_pmf L c k
          = ∑ k ∈ Finset.Icc (0 : ℤ) (L - c - 1), 1 / ((L - c : ℤ) : ℚ) := by
            refine Finset.sum_congr rfl ?_
            intro k hk
            rw [Finset.mem_Icc] at hk
            exact hmem k hk.1 (by omega)
      _ = ((Finset.Icc (0 : ℤ) (L - c - 1)).card : ℚ) * (1 / ((L - c : ℤ) : ℚ)) := by
            rw [Finset.sum_const, nsmul_eq_mul]
      _ = 1 := by
            rw [hcard]
            rw [show (((L - c).toNat : ℚ)) = ((L - c : ℤ) : ℚ) by
              norm_cast
              omega]
            rw [mul_one_div, div_self hne]

/-- Witness for `C1_start_uniform_excluding_last` at `L = 5`, `c = 3`. -/
theorem C1_start_uniform_excluding_last_witness :
    clip_start_pmf 5 3 0 = 1 / ((5 - 3 : ℤ) : ℚ) ∧ clip_start_pmf 5 3 (5 - 3) = 0 :=
  ⟨(C1_start_uniform_excluding_last 5 3 (by norm_num)).1 0 (by norm_num) (by norm_num),
   (C1_start_uniform_excluding_last 5 3 (by norm_num)).2.1⟩

/-- C4: for an image whose decoded (and resized) pixels are 8-bit values in
`[0, 255]`, every element of the array returned by `np_load_frame` — pixel
`v` mapped to `v / 127.5 - 1.0` — lies in the interval `[-1, 1]`. -/
theorem C4_np_load_frame_range {h w : ℕ} (image_resized : Fin h → Fin w → Fin 3 → ℕ)
    (hpix : ∀ i j c, image_resized i j c ≤ 255) (i : Fin h) (j : Fin w) (c : Fin 3) :
    -1 ≤ np_load_frame image_resized i j c ∧ np_load_frame image_resized i j c ≤ 1 := by
  have h0 : (0 : ℚ) ≤ (image_resized i j c : ℚ) := Nat.cast_nonneg _
  have h255 : (image_resized i j c : ℚ) ≤ 255 := by exact_mod_cast hpix i j c
  unfold np_load_frame
  constructor
  · have hq : (0 : ℚ) ≤ (image_resized i j c : ℚ) / 127.5 := by positivity
    norm_num
    linarith
  · have hq : (image_resized i j c : ℚ) / 127.5 ≤ 2 := by
      rw [div_le_iff₀ (by norm_num)]
      linarith
    norm_num
    linarith

/-- All-white `1 × 1` test image (every 8-bit pixel equal to `255`). -/
def img255 : Fin 1 → Fin 1 → Fin 3 → ℕ := fun _ _ _ => 255

/-- Witness for `C4_np_load_frame_range` on `img255`. -/
theorem C4_np_load_frame_range_witness :
    -1 ≤ np_load_frame img255 0 0 0 ∧ np_load_frame img255 0 0 0 ≤ 1 :=
  C4_np_load_frame_range img255 (fun _ _ _ => le_refl 255) 0 0 0

/-- C7: the `save` wrapper's filesystem trace is exactly: create `logdir`
(with parents) if and only if it does not already exist, then one
`saver.save` call at path `logdir/model.ckpt` with `global_step = step` — and
nothing else. -/
theorem C7_save_trace (logdir : String) (step : ℤ) (logdirExists : Bool) :
    save logdir step logdirExists =
      if logdirExists then
        [FsAction.saverSave (logdir ++ "/" ++ "model.ckpt") step]
      else
        [FsAction.makedirs logdir, FsAction.saverSave (logdir ++ "/" ++ "model.ckpt") step] := by
  cases logdirExists <;> rfl

/-- C8: `DataLoader.__getitem__` raises `AssertionError` exactly when the
video name is not a key of `self.videos`; on a present key it returns the
stored record, and in either case the loader state is unchanged. -/
theorem C8_getitem_spec (dl : DataLoader) (video_name : String) :
    ((dl.getitem video_name).1 = .error .assertionError ↔
      video_name ∉ dl.videos.map Prod.fst) ∧
    (∀ info, dl.videos.lookup video_name = some info →
      (dl.getitem video_name).1 = .ok info) ∧
    (dl.getitem video_name).2 = dl := by
  unfold DataLoader.getitem
  rw [← lookup_eq_none_iff]
  rcases hl : dl.videos.lookup video_name with _ | info <;> simp [hl]

/-- Concrete one-video loader used by witnesses. -/
def dl0 : DataLoader :=
  { dir := "data"
    videos := [("v1", { path := "data/v1", frame := ["data/v1/0.jpg"], length := 1 })] }

/-- Witness for `C8_getitem_spec` on `dl0` at key `"v1"`. -/
theorem C8_getitem_spec_witness :
    (dl0.getitem "v1").1 = .ok { path := "data/v1", frame := ["data/v1/0.jpg"], length := 1 } ∧
    (dl0.getitem "v1").2 = dl0 :=
  ⟨(C8_getitem_spec dl0 "v1").2.1 _ rfl, (C8_getitem_spec dl0 "v1").2.2⟩

/-- C2: `psnr_error` computes the standard closed-form PSNR — rescale both
tensors to `[0, 1]` by `(x + 1) / 2`, take `10 * log10(1 / MSE)` per batch
element with `MSE` the mean of squared per-pixel differences over the height,
width and channel axes, and average over the batch. -/
theorem C2_psnr_error_closed_form {b h w : ℕ} (gen_frames gt_frames : Tensor4 b h w 3) :
    psnr_error gen_frames gt_frames = psnr_spec gen_frames gt_frames := by
  simp only [psnr_error, psnr_spec]
  congr 1
  refine Finset.sum_congr rfl fun bb _ => ?_
  congr 2
  rw [one_div_mul_eq_div]
  norm_num

/-- Helper: multiplying by a column of `np.identity(channels)` and summing
over input channels selects one channel. -/
theorem sum_mul_idMat {ch : ℕ} (f : Fin ch → ℝ) (c : Fin ch) :
    ∑ d, f d * idMat ch d c = f c := by
  unfold idMat
  simp [mul_ite, Finset.sum_ite_eq']

/-- Helper: zero-padded access at in-range indices is plain access. -/
theorem tensorGet_inbounds {b h w ch : ℕ} (x : Tensor4 b h w ch) (bb : Fin b)
    (i : Fin h) (j : Fin w) (d : Fin ch) :
    tensorGet x bb (i : ℤ) (j : ℤ) d = x bb i j d := by
  unfold tensorGet
  rw [dif_pos ⟨Int.natCast_nonneg _, by exact_mod_cast i.isLt⟩,
     dif_pos ⟨Int.natCast_nonneg _, by exact_mod_cast j.isLt⟩]
  simp

/-- Helper: the `SAME` convolution with `filter_x` is per-channel horizontal
differencing — right neighbour (zero past the edge) minus current pixel. -/
theorem conv2d_filter_x_eval {b h w ch : ℕ} (x : Tensor4 b h w ch) (bb : Fin b)
    (i : Fin h) (j : Fin w) (c : Fin ch) :
    conv2d_same x (filter_x ch) bb i j c =
      tensorGet x bb (i : ℤ) ((j : ℤ) + 1) c - x bb i j c := by
  unfold conv2d_same filter_x
  rw [Fin.sum_univ_one, Fin.sum_univ_two]
  simp only [Fin.val_zero, Fin.val_one, Nat.cast_zero, Nat.cast_one]
  norm_num
  rw [sum_mul_idMat, sum_mul_idMat, tensorGet_inbounds]
  ring

/-- Helper: the `SAME` convolution with `filter_y` is per-channel vertical
differencing — current pixel minus neighbour below (zero past the edge). -/
theorem conv2d_filter_y_eval {b h w ch : ℕ} (x : Tensor4 b h w ch) (bb : Fin b)
    (i : Fin h) (j : Fin w) (c : Fin ch) :
    conv2d_same x (filter_y ch) bb i j c =
      x bb i j c - tensorGet x bb ((i : ℤ) + 1) (j : ℤ) c := by
  unfold conv2d_same filter_y
  rw [Fin.sum_univ_two]
  simp only [Fin.sum_univ_one, Fin.val_zero, Fin.val_one, Nat.cast_zero, Nat.cast_one]
  norm_num
  rw [sum_mul_idMat, sum_mul_idMat, tensorGet_inbounds]
  ring

/-- C3: `sharp_diff_error` computes the standard gradient-difference
sharpness formula — per-pixel horizontal and vertical gradient magnitudes via
the `[-1, 1]` and `[[1], [-1]]` stride-1 SAME convolutions, per-input sum of
the absolute x- and y-gradients, absolute difference of the sums between
ground truth and generated frames, and batch mean of
`10 * log10(num_pixels / sum_of_gradient_differences)` with
`num_pixels = height * width * channels`. -/
theorem C3_sharp_diff_error_closed_form {b h w : ℕ} (ch : ℕ)
    (gen_frames gt_frames : Tensor4 b h w ch) :
    sharp_diff_error ch gen_frames gt_frames = sharp_diff_spec ch gen_frames gt_frames := by
  simp only [sharp_diff_error, sharp_diff_spec, grad_x, grad_y]
  congr 1
  refine Finset.sum_congr rfl fun bb _ => ?_
  congr 2
  rw [one_div_mul_eq_div, one_div_div]
  congr 1
  refine Finset.sum_congr rfl fun i _ =>
    Finset.sum_congr rfl fun j _ => Finset.sum_congr rfl fun c _ => ?_
  rw [conv2d_filter_x_eval, conv2d_filter_y_eval, conv2d_filter_x_eval, conv2d_filter_y_eval]
  rw [abs_sub_comm (gt_frames bb i j c) (tensorGet gt_frames bb ((i : ℤ) + 1) (j : ℤ) c),
      abs_sub_comm (gen_frames bb i j c) (tensorGet gen_frames bb ((i : ℤ) + 1) (j : ℤ) c)]

/-- Default all-zero image (used only as a `getD` default at in-range
indices). -/
def zeroImg {h w : ℕ} : Img h w 3 := fun _ _ _ => 0

/-- Helper: the channel slice `[3k, 3k+3)` of a channel-axis concatenation is
the `k`-th image of the list. -/
theorem concatCh_slice {h w : ℕ} (l : List (Img h w 3)) (i : Fin h) (j : Fin w) :
    ∀ (k r : ℕ) (hk : k < l.length) (hr : r < 3),
      concatCh l i j ⟨3 * k + r, by omega⟩ = (l.getD k zeroImg) i j ⟨r, hr⟩ := by
  induction l with
  | nil => intro k r hk hr; exact absurd hk (Nat.not_lt_zero k)
  | cons a t ih =>
    intro k r hk hr
    cases k with
    | zero =>
      simp only [concatCh]
      split
      · rw [List.getD_cons_zero]
        congr 1
        exact Fin.ext (show 3 * 0 + r = r by omega)
      · next hq =>
        have hq' : ¬ 3 * 0 + r < 3 := hq
        omega
    | succ k' =>
      simp only [concatCh]
      split
      · next hq =>
        have hq' : 3 * (k' + 1) + r < 3 := hq
        omega
      · next hq =>
        have hk' : k' < t.length := by
          have hk2 := hk
          simp only [List.length_cons] at hk2
          omega
        rw [List.getD_cons_succ]
        have hih := ih k' r hk' hr
        convert hih using 2
        exact Fin.ext (show 3 * (k' + 1) + r - 3 = 3 * k' + r by omega)

/-- Helper: length of the embedded Python `range`. -/
theorem pyRange_length (s e : ℤ) : (pyRange s e).length = (e - s).toNat := by
  rw [pyRange, List.length_map, List.length_range]

/-- Helper: membership in the embedded Python `range`. -/
theorem pyRange_mem {s e i : ℤ} : i ∈ pyRange s e ↔ s ≤ i ∧ i < e := by
  simp only [pyRange, List.mem_map, List.mem_range]
  constructor
  · rintro ⟨k, hk, rfl⟩
    omega
  · rintro ⟨h1, h2⟩
    exact ⟨(i - s).toNat, by omega, by omega⟩

/-- Helper: in-range nonnegative Python indexing reads from the front. -/
theorem pyGet_front {α : Type} (l : List α) (d : α) (i : ℤ)
    (h0 : 0 ≤ i) (hl : i < (l.length : ℤ)) :
    pyGet l i = .ok (l.getD i.toNat d) := by
  unfold pyGet
  rw [dif_pos ⟨h0, hl⟩, List.getD_eq_getElem l d (by omega), List.get_eq_getElem]

/-- Helper: negative Python indexing in `[-len, 0)` reads from the end. -/
theorem pyGet_neg {α : Type} (l : List α) (d : α) (i : ℤ)
    (hn : -(l.length : ℤ) ≤ i) (hi : i < 0) :
    pyGet l i = .ok (l.getD ((l.length : ℤ) + i).toNat d) := by
  unfold pyGet
  rw [dif_neg (by omega), dif_pos ⟨hn, hi⟩,
      List.getD_eq_getElem l d (by omega), List.get_eq_getElem]

/-- Helper: `mapM` over `Except` succeeds pointwise. -/
theorem mapM_ok {α β : Type} (f : α → Except PyErr β) (g : α → β) :
    ∀ l : List α, (∀ a ∈ l, f a = .ok (g a)) → l.mapM f = .ok (l.map g) := by
  intro l
  induction l with
  | nil => intro _; rfl
  | cons a t ih =>
    intro hall
    rw [List.mapM_cons, hall a (List.mem_cons_self a t),
        ih (fun x hx => hall x (List.mem_cons_of_mem a hx))]
    rfl

/-- Helper: `np.concatenate` on a nonempty list succeeds with the stacked
tensor. -/
theorem np_concatenate_ch_ne_nil {h w : ℕ} (l : List (Img h w 3)) (hl : l ≠ []) :
    np_concatenate_ch l = .ok ⟨l.length, concatCh l⟩ := by
  cases l with
  | nil => exact absurd rfl hl
  | cons a t => rfl

/-- C5: the clip yielded by `video_clip_generator` is the channel-axis
concatenation of the video's consecutive loaded frames
`start, start + 1, …, start + clip_length - 1`, in that order, with
`clip_length = time_steps + num_pred`: its channel slice `[3k, 3k + 3)` is
exactly frame `start + k`, and its type records the shape
`[h, w, clip_length * 3]`. -/
theorem C5_generator_clip_consecutive {h w : ℕ} (frame : ℕ → Img h w 3)
    (start time_steps num_pred : ℕ) (k : Fin (time_steps + num_pred)) (r : Fin 3)
    (i : Fin h) (j : Fin w) :
    video_clip frame start (time_steps + num_pred) i j
        ⟨3 * (k : ℕ) + (r : ℕ), by have hk := k.isLt; have hr := r.isLt; omega⟩ =
      frame (start + (k : ℕ)) i j r := by
  unfold video_clip
  have hk : (k : ℕ) < ((List.range' start (time_steps + num_pred)).map frame).length := by
    rw [List.length_map, List.length_range']
    exact k.isLt
  rw [Fin.cast_mk]
  rw [concatCh_slice _ i j (k : ℕ) (r : ℕ) hk r.isLt]
  rw [List.getD_eq_getElem _ _ hk, List.getElem_map, List.getElem_range'_1]

/-- The frames `frames[s], …, frames[e-1]` of a front-indexed Python range
(specification-side description of what a valid `get_video_clips` call
reads). -/
def sliceFrames {h w : ℕ} (frames : List (Img h w 3)) (s e : ℤ) : List (Img h w 3) :=
  (pyRange s e).map (fun idx => frames.getD idx.toNat zeroImg)

/-- C6: for a video present in the loader and indices
`0 ≤ start < end ≤ length`, `get_video_clips` returns (without raising) the
channel-axis concatenation of the video's loaded frames at indices
`start, …, end - 1`: the batch has `end - start` frames (so the result's
shape is `[h, w, 3 * (end - start)]`), and channel slice `[3k, 3k + 3)` of
the concatenation is the loaded frame at index `start + k`. -/
theorem C6_get_video_clips_valid_range {h w : ℕ} (dl : DataLoader)
    (load : String → Img h w 3) (video : String) (info : VideoInfo)
    (hv : dl.videos.lookup video = some info) (s e : ℤ)
    (hs : 0 ≤ s) (hse : s < e) (he : e ≤ (info.frame.length : ℤ)) :
    (dl.get_video_clips load video s e).1 =
      np_concatenate_ch (sliceFrames (info.frame.map load) s e) ∧
    (sliceFrames (info.frame.map load) s e).length = (e - s).toNat ∧
    (∃ cl : Clip h w, (dl.get_video_clips load video s e).1 = .ok cl) ∧
    ∀ (k r : ℕ) (hk : k < (sliceFrames (info.frame.map load) s e).length) (hr : r < 3)
      (i : Fin h) (j : Fin w),
      concatCh (sliceFrames (info.frame.map load) s e) i j ⟨3 * k + r, by omega⟩ =
        (info.frame.map load).getD ((s + (k : ℤ)).toNat) zeroImg i j ⟨r, hr⟩ := by
  have hlen : (sliceFrames (info.frame.map load) s e).length = (e - s).toNat := by
    rw [sliceFrames, List.length_map, pyRange_length]
  have hmapM : (pyRange s e).mapM (pyGet (info.frame.map load)) =
      .ok (sliceFrames (info.frame.map load) s e) := by
    rw [sliceFrames]
    refine mapM_ok _ _ _ fun idx hidx => ?_
    rw [pyRange_mem] at hidx
    refine pyGet_front _ _ _ (by omega) ?_
    rw [List.length_map]
    omega
  have hbody : (dl.get_video_clips load video s e).1 =
      np_concatenate_ch (sliceFrames (info.frame.map load) s e) := by
    simp only [DataLoader.get_video_clips, hv, get_video_clips_body, hmapM]
    rfl
  have hne : sliceFrames (info.frame.map load) s e ≠ [] := by
    intro hnil
    rw [hnil] at hlen
    simp only [List.length_nil] at hlen
    omega
  refine ⟨hbody, hlen, ⟨⟨_, _⟩, by rw [hbody, np_concatenate_ch_ne_nil _ hne]⟩, ?_⟩
  intro k r hk hr i j
  rw [concatCh_slice _ i j k r hk hr]
  rw [List.getD_eq_getElem _ _ hk]
  simp only [sliceFrames, List.getElem_map, pyRange, List.getElem_range]

/-- The video record stored in `dl0`. -/
def info0 : VideoInfo := { path := "data/v1", frame := ["data/v1/0.jpg"], length := 1 }

/-- Constant-zero loading oracle at resize dimensions `1 × 1`. -/
def load1 : String → Img 1 1 3 := fun _ => zeroImg

/-- Witness for `C6_get_video_clips_valid_range` on `dl0` with the range
`[0, 1)`. -/
theorem C6_get_video_clips_valid_range_witness :
    (dl0.get_video_clips load1 "v1" 0 1).1 =
      np_concatenate_ch (sliceFrames (info0.frame.map load1) 0 1) ∧
    (sliceFrames (info0.frame.map load1) 0 1).length = ((1 : ℤ) - 0).toNat ∧
    (∃ cl : Clip 1 1, (dl0.get_video_clips load1 "v1" 0 1).1 = .ok cl) :=
  ⟨(C6_get_video_clips_valid_range dl0 load1 "v1" info0 rfl 0 1 (by norm_num) (by norm_num)
      (by norm_num [info0])).1,
   (C6_get_video_clips_valid_range dl0 load1 "v1" info0 rfl 0 1 (by norm_num) (by norm_num)
      (by norm_num [info0])).2.1,
   (C6_get_video_clips_valid_range dl0 load1 "v1" info0 rfl 0 1 (by norm_num) (by norm_num)
      (by norm_num [info0])).2.2.1⟩

/-- C10: `get_video_clips` validates nothing (its `assert`s are commented
out).  (a) When `start >= end` the batch list is empty and the failure is
`np.concatenate`'s `ValueError` about concatenating an empty list, not an
assertion about the range.  (b) When `start` is negative (within `-length`),
it raises nothing and silently reads frames from the END of the video by
Python negative indexing: index `idx` reads frame `length + idx`. -/
theorem C10_no_validation {h w : ℕ} :
    (∀ (frames : List (Img h w 3)) (s e : ℤ), e ≤ s →
      get_video_clips_body frames s e = .error .valueError) ∧
    (∀ (frames : List (Img h w 3)) (s e : ℤ),
      -(frames.length : ℤ) ≤ s → s < 0 → s < e → e ≤ 0 →
      get_video_clips_body frames s e =
        np_concatenate_ch ((pyRange s e).map
          (fun idx => frames.getD ((frames.length : ℤ) + idx).toNat zeroImg)) ∧
      ∃ cl : Clip h w, get_video_clips_body frames s e = .ok cl) := by
  constructor
  · intro frames s e hse
    have hnil : pyRange s e = [] :=
      List.eq_nil_of_length_eq_zero (by rw [pyRange_length]; omega)
    rw [get_video_clips_body, hnil]
    rfl
  · intro frames s e hns hs0 hse he0
    have hmapM : (pyRange s e).mapM (pyGet frames) =
        .ok ((pyRange s e).map
          (fun idx => frames.getD ((frames.length : ℤ) + idx).toNat zeroImg)) := by
      refine mapM_ok _ _ _ fun idx hidx => ?_
      rw [pyRange_mem] at hidx
      exact pyGet_neg _ _ _ (by omega) (by omega)
    have hbody : get_video_clips_body frames s e =
        np_concatenate_ch ((pyRange s e).map
          (fun idx => frames.getD ((frames.length : ℤ) + idx).toNat zeroImg)) := by
      rw [get_video_clips_body, hmapM]
      rfl
    have hne : ((pyRange s e).map
        (fun idx => frames.getD ((frames.length : ℤ) + idx).toNat zeroImg)) ≠ [] := by
      intro hnil
      have hlen := congrArg List.length hnil
      rw [List.length_map, pyRange_length] at hlen
      simp only [List.length_nil] at hlen
      omega
    exact ⟨hbody, ⟨_, by rw [hbody, np_concatenate_ch_ne_nil _ hne]⟩⟩

/-- Two-frame video at resize dimensions `1 × 1`. -/
def frames2 : List (Img 1 1 3) := [zeroImg, fun _ _ _ => 1]

/-- Witness for `C10_no_validation`: `start = 2 >= end = 1` yields the
empty-concatenation `ValueError`; `start = -1, end = 0` silently reads from
the end. -/
theorem C10_no_validation_witness :
    get_video_clips_body frames2 2 1 = .error .valueError ∧
    get_video_clips_body frames2 (-1) 0 =
      np_concatenate_ch ((pyRange (-1) 0).map
        (fun idx => frames2.getD ((frames2.length : ℤ) + idx).toNat zeroImg)) :=
  ⟨(@C10_no_validation 1 1).1 frames2 2 1 (by norm_num),
   ((@C10_no_validation 1 1).2 frames2 (-1) 0 (by norm_num [frames2]) (by norm_num)
      (by norm_num) (by norm_num)).1⟩

/-- C9: after `setup`, every video record's `length` equals the number of
entries of its `frame` list, the `frame` list is sorted in ascending
lexicographic order and is exactly (a permutation of) the globbed `*.jpg`
paths under the video's directory; and none of `__call__`, `__getitem__` or
`get_video_clips` modifies `self.videos`. -/
theorem C9_setup_invariant :
    (∀ (fs : String → List String) (dir : String),
      ∀ p ∈ setup fs dir,
        p.2.length = p.2.frame.length ∧
        List.Sorted (· ≤ ·) p.2.frame ∧
        p.2.frame.Perm (fs (p.2.path ++ "/*.jpg"))) ∧
    (∀ (dl : DataLoader) (video_name : String),
      ((dl.getitem video_name).2).videos = dl.videos) ∧
    (∀ (dl : DataLoader) (batch_size time_steps num_pred : ℕ),
      ((dl.call batch_size time_steps num_pred).2).videos = dl.videos) ∧
    (∀ (h w : ℕ) (dl : DataLoader) (load : String → Img h w 3) (video : String) (s e : ℤ),
      ((dl.get_video_clips load video s e).2).videos = dl.videos) := by
  refine ⟨?_, ?_, ?_, ?_⟩
  · intro fs dir p hp
    rw [setup] at hp
    obtain ⟨video, hv, rfl⟩ := List.mem_map.mp hp
    exact ⟨rfl, List.sorted_mergeSort' _, List.mergeSort_perm _ _⟩
  · intro dl video_name
    unfold DataLoader.getitem
    cases dl.videos.lookup video_name <;> rfl
  · intro dl batch_size time_steps num_pred
    rfl
  · intro h w dl load video s e
    unfold DataLoader.get_video_clips
    cases dl.videos.lookup video <;> rfl

/-- A `glob.glob` oracle with one video directory `d/v` holding two frame
paths listed out of order. -/
def fs0 : String → List String := fun pat =>
  if pat = "d/*" then ["d/v"]
  else if pat = "d/v/*.jpg" then ["b", "a"]
  else []

/-- The entry `setup fs0 "d"` produces. -/
def p0 : String × VideoInfo :=
  (lastComponent "d/v", { path := "d/v", frame := ["a", "b"], length := 2 })

/-- Witness for `C9_setup_invariant` on the concrete oracle `fs0`. -/
theorem C9_setup_invariant_witness :
    p0.2.length = p0.2.frame.length ∧
    List.Sorted (· ≤ ·) p0.2.frame ∧
    p0.2.frame.Perm (fs0 (p0.2.path ++ "/*.jpg")) :=
  C9_setup_invariant.1 fs0 "d" p0
    (by simp +decide [setup, fs0, p0, List.mergeSort, List.merge])
